import Mathlib

/-!
Verification of the `patent_extractor` package (xml-extractor repository).

This file gives a shallow embedding of the extraction pipeline implemented in
`src/patent_extractor/parser.py` and `src/patent_extractor/extractor.py`,
and proves or refutes the frozen specification claims about it.

Modelling conventions:
* XML elements (lxml `_Element`) become the mutual inductives
  `XElem`/`XForest` (a forest is a list of elements; the separate type
  keeps all recursion structural and hence kernel-computable).  Each node
  carries an `eid : Nat` modelling Python object identity (lxml elements
  compare by identity, so `elem not in results` is identity membership);
  a real parsed tree has pairwise-distinct identities.
* Python strings become Lean `String`; the string methods the source uses
  (`lower`, `strip`, one-character `replace`, string comparison) are
  modelled as kernel-computable functions on the character list.
* Bytes become `List Nat`; the filesystem state visible to
  `parse_xml_file` becomes the inductive `FileState`.
* Behaviour of external libraries (Python's utf-8/utf-16/cp1252 codecs and
  the lxml recovering parser) is abstracted into the record `ExtLib`;
  latin-1 decoding is implemented concretely because its totality matters.
* Python exceptions become `Except PatError`; the three exception classes of
  `errors.py` become the three constructors of `PatError`.
-/

/-- The three exception classes of `src/patent_extractor/errors.py`:
`FileError`, `XMLParseError`, `ExtractionError`. -/
inductive PatError where
  | fileError (msg : String)
  | xmlParseError (msg : String)
  | extractionError (msg : String)
deriving DecidableEq, Repr

mutual

/-- An lxml element: identity, tag (possibly of the form
`\x7buri\x7dlocal`), attributes in insertion order, direct text,
tail text, and child elements in document order. -/
inductive XElem where
  | node (eid : Nat) (tag : String) (attrib : List (String × String))
      (text : Option String) (tailText : Option String)
      (children : XForest)

/-- A list of sibling elements in document order. -/
inductive XForest where
  | nil
  | cons (head : XElem) (tail : XForest)

end

/-- Build a forest from a list of elements. -/
def XForest.ofList : List XElem → XForest
  | [] => .nil
  | c :: cs => .cons c (XForest.ofList cs)

/-- The elements of a forest, as a list. -/
def XForest.toList : XForest → List XElem
  | .nil => []
  | .cons c cs => c :: XForest.toList cs

/-- Object identity of an element. -/
def XElem.eid : XElem → Nat
  | .node i _ _ _ _ _ => i

/-- The element's tag string. -/
def XElem.tag : XElem → String
  | .node _ t _ _ _ _ => t

/-- The element's attribute dictionary, as an insertion-ordered list. -/
def XElem.attrib : XElem → List (String × String)
  | .node _ _ a _ _ _ => a

/-- The element's direct text (lxml `.text`). -/
def XElem.text : XElem → Option String
  | .node _ _ _ x _ _ => x

/-- The element's tail text (lxml `.tail`). -/
def XElem.tailText : XElem → Option String
  | .node _ _ _ _ tl _ => tl

/-- The element's children in document order, as a list. -/
def XElem.children : XElem → List XElem
  | .node _ _ _ _ _ cs => cs.toList

mutual

/-- lxml `root.iter()`: the element followed by its descendants in
document order (preorder). -/
def XElem.iter : XElem → List XElem
  | .node i t a x tl cs => .node i t a x tl cs :: XForest.iterF cs

/-- Preorder traversal of a forest, in document order. -/
def XForest.iterF : XForest → List XElem
  | .nil => []
  | .cons c cs => XElem.iter c ++ XForest.iterF cs

end

/-- `iterF` is the concatenation of the per-root traversals. -/
theorem XForest.iterF_eq_flatMap : (cs : XForest) →
    XForest.iterF cs = cs.toList.flatMap XElem.iter
  | .nil => rfl
  | .cons c cs => by
    simp [XForest.iterF, XForest.toList, XForest.iterF_eq_flatMap cs]

/-- Unfolding lemma for `XElem.iter`. -/
theorem XElem.iter_def (e : XElem) :
    e.iter = e :: e.children.flatMap XElem.iter := by
  cases e with
  | node i t a x tl cs =>
    rw [XElem.iter, XForest.iterF_eq_flatMap]
    rfl

/-! ### Python string primitives

Lean's built-in `String.toLower`, `String.trim`, `String.replace` and the
`String` order are position-based and do not compute inside the kernel, so
the Python string operations the source uses are modelled directly on the
underlying character lists, structurally.  All inputs of interest here are
ASCII, where these agree with Python's `str.lower`, `str.strip`,
single-character `str.replace`, and string comparison. -/

/-- Python `str.lower()`, per character (ASCII case mapping). -/
def pyLower (s : String) : String :=
  String.mk (s.data.map Char.toLower)

/-- The whitespace characters Python `str.strip()` removes (the ASCII ones:
space, tab, newline, carriage return, vertical tab, form feed). -/
def pyIsSpace (c : Char) : Bool :=
  c = ' ' ∨ c = '\t' ∨ c = '\n' ∨ c = '\r' ∨ c = '\x0b' ∨ c = '\x0c'

/-- Python `str.strip()`: drop leading and trailing whitespace. -/
def pyStrip (s : String) : String :=
  String.mk (((s.data.dropWhile pyIsSpace).reverse.dropWhile pyIsSpace).reverse)

/-- Python `str.replace(old, new)` for one-character `old` and `new`
(the only form the source uses), i.e. per-character substitution. -/
def pyReplaceChar (s : String) (old new : Char) : String :=
  String.mk (s.data.map (fun c => if c = old then new else c))

/-- Python string comparison (`<=` on strings, used by the tuple sort
key): lexicographic on code points. -/
def lexLe : List Char → List Char → Bool
  | [], _ => true
  | _ :: _, [] => false
  | a :: as, b :: bs =>
    if a < b then true else if a = b then lexLe as bs else false

/-- Python `s <= t` on strings. -/
def pyStrLe (s t : String) : Bool := lexLe s.data t.data

/-! ### parser.py: attribute normalization -/

/-- `normalize_attribute_name` (parser.py line 23):
`name.lower().replace("-", "_").replace("_", "_")`. -/
def normalize_attribute_name (name : String) : String :=
  (pyReplaceChar (pyReplaceChar (pyLower name) '-' '_') '_' '_')

/-- `normalize_attribute_value` (parser.py line 36):
`value.strip().lower() if value else ""`. -/
def normalize_attribute_value (value : String) : String :=
  if value = "" then "" else pyLower (pyStrip value)

/-- `get_normalized_attribute` (parser.py line 49): return the normalized
value of the first attribute whose normalized name matches the normalized
requested name, or `none`. -/
def get_normalized_attribute (element : XElem) (attr_name : String) :
    Option String :=
  if element.attrib.isEmpty then none
  else
    let normalized_attr := normalize_attribute_name attr_name
    match element.attrib.find?
        (fun kv => normalize_attribute_name kv.1 = normalized_attr) with
    | some kv => some (normalize_attribute_value kv.2)
    | none => none

/-! ### parser.py: element discovery -/

/-- The local name of a tag: `tag_str.split("\x7d")[-1]` when the tag
contains `\x7d`, else the tag itself (parser.py lines 158-159; the two
branches agree, and both equal the suffix after the last `\x7d`). -/
def localName (tag_str : String) : String :=
  String.mk ((tag_str.data.reverse.takeWhile (fun c => c ≠ '\x7d')).reverse)

/-- `root.findall(".//" + tag_name)` (parser.py line 152): all proper
descendants, in document order, whose tag is exactly `tag_name`. -/
def findallDescendants (root : XElem) (tag_name : String) : List XElem :=
  (root.children.flatMap XElem.iter).filter (fun e => e.tag = tag_name)

/-- One step of the second discovery pass (parser.py lines 155-161): append
`elem` when its local name matches and it is not already collected.
Membership is lxml element identity, modelled by `eid`. -/
def collectStep (tag_name : String) (results : List XElem) (elem : XElem) :
    List XElem :=
  if localName elem.tag = tag_name ∧ ¬ results.any (fun r => r.eid = elem.eid)
  then results ++ [elem] else results

/-- `find_elements_with_namespace_handling` (parser.py line 127) with
`namespace_map = None`, as every call site passes: first the direct
`findall` pass, then a full `iter()` walk adding elements whose local
name matches and that were not already collected. -/
def find_elements_with_namespace_handling (root : XElem) (tag_name : String) :
    List XElem :=
  let results := findallDescendants root tag_name
  root.iter.foldl (collectStep tag_name) results

/-! ### parser.py: text extraction -/

/-- `extract_text_content` (parser.py line 166): direct text only
(`element.text or ""`, stripped); the tail text is computed but unused,
and descendant text is never consulted. -/
def extract_text_content (element : XElem) : String :=
  pyStrip (element.text.getD "")

/-! ### parser.py: file loading -/

/-- The candidate encodings, in order (parser.py line 20):
`["utf-8", "utf-16", "latin-1", "iso-8859-1", "cp1252"]`. -/
inductive Enc where
  | utf8 | utf16 | latin1 | iso8859_1 | cp1252
deriving DecidableEq, Repr

/-- `ENCODINGS_TO_TRY` (parser.py line 20). -/
def ENCODINGS_TO_TRY : List Enc :=
  [.utf8, .utf16, .latin1, .iso8859_1, .cp1252]

/-- Latin-1 decoding of a byte sequence: each byte is the code point of one
character.  Total by construction, exactly as Python's `latin-1` codec. -/
def latin1Decode (bs : List Nat) : String :=
  String.mk (bs.map (fun b => Char.ofNat (b % 256)))

/-- Behaviour of the external libraries the loader calls: the remaining
Python codecs (which may reject input, returning `none` for a
`UnicodeDecodeError`) and lxml's recovering parser
(`etree.XMLParser(recover=True, huge_tree=True)`; `none` models any
exception raised by `etree.fromstring`). -/
structure ExtLib where
  utf8Decode : List Nat → Option String
  utf16Decode : List Nat → Option String
  iso8859Decode : List Nat → Option String
  cp1252Decode : List Nat → Option String
  xmlRecoverParse : String → Option XElem

/-- `raw_content.decode(encoding)` for each candidate encoding. -/
def decodeWith (lib : ExtLib) : Enc → List Nat → Option String
  | .utf8 => lib.utf8Decode
  | .utf16 => lib.utf16Decode
  | .latin1 => fun bs => some (latin1Decode bs)
  | .iso8859_1 => lib.iso8859Decode
  | .cp1252 => lib.cp1252Decode

/-- The filesystem state at the given path, as `parse_xml_file` observes
it: missing (`not path.exists()`), existing but not a regular file
(`not path.is_file()`), a regular file whose every `open` raises
`IOError`, or a readable regular file with the given byte content. -/
inductive FileState where
  | missing
  | notFile
  | unreadable
  | readable (bytes : List Nat)
deriving DecidableEq

/-- `open(file_path, "rb").read()`: `some` bytes, or `none` for the
`IOError` that the loop catches. -/
def readBytes : FileState → Option (List Nat)
  | .readable bs => some bs
  | _ => none

/-- The encoding loop of `parse_xml_file` (parser.py lines 99-109): for
each candidate, re-open and read the file, try to decode; the first
success sets `content` and `encoding_used`; `UnicodeDecodeError` and
`IOError` are caught and the loop continues. -/
def tryEncodings (lib : ExtLib) (fs : FileState) :
    List Enc → Option (String × Enc)
  | [] => none
  | enc :: rest =>
    match readBytes fs with
    | none => tryEncodings lib fs rest
    | some bs =>
      match decodeWith lib enc bs with
      | some content => some (content, enc)
      | none => tryEncodings lib fs rest

/-- `parse_xml_file` (parser.py line 75): existence and regular-file
checks raise `FileError`; then the encoding loop; `content is None`
raises `FileError`; finally the decoded content (re-encoded with the
winning encoding) is handed to the recovering parser, any parse
exception becoming `XMLParseError`. -/
def parse_xml_file (lib : ExtLib) (fs : FileState) : Except PatError XElem :=
  if fs = .missing then .error (.fileError "File not found")
  else if fs = .notFile then .error (.fileError "Path is not a file")
  else
    match tryEncodings lib fs ENCODINGS_TO_TRY with
    | none =>
        .error (.fileError "Could not read file with any supported encoding")
    | some (content, _encoding_used) =>
      match lib.xmlRecoverParse content with
      | some tree => .ok tree
      | none => .error (.xmlParseError "Failed to parse XML file")

/-! ### extractor.py: priorities -/

/-- `PRIORITY_MAP` (extractor.py line 24). -/
def PRIORITY_MAP : List (String × Nat) :=
  [("epo", 0), ("docdb", 0),
   ("patent-office", 1), ("patent_office", 1), ("patentoffice", 1)]

/-- `DEFAULT_PRIORITY` (extractor.py line 33). -/
def DEFAULT_PRIORITY : Nat := 99

/-- `normalize_load_source` (extractor.py line 36):
`load_source.lower().strip()`, then the synonym mapping. -/
def normalize_load_source (load_source : String) : String :=
  let normalized := pyStrip (pyLower load_source)
  if normalized = "epo" ∨ normalized = "docdb" then "epo"
  else if normalized = "patent-office" ∨ normalized = "patent_office" ∨
      normalized = "patentoffice" then "patent-office"
  else normalized

/-- `get_priority` (extractor.py line 59):
`PRIORITY_MAP.get(normalize_load_source(load_source), DEFAULT_PRIORITY)`. -/
def get_priority (load_source : String) : Nat :=
  match PRIORITY_MAP.find? (fun kv => kv.1 = normalize_load_source load_source) with
  | some kv => kv.2
  | none => DEFAULT_PRIORITY

/-! ### extractor.py: single-record extraction -/

/-- lxml `element.find(tag)` with a plain relative tag path: the first
direct child whose tag is exactly `tag` (no namespace handling). -/
def findChild (element : XElem) (tag : String) : Option XElem :=
  element.children.find? (fun c => c.tag = tag)

/-- `extract_doc_number_from_document_id` (extractor.py line 73).
Returns `(doc_number?, priority, load_source)`:
* the `load-source` attribute via normalized lookup; a falsy value
  (absent, or empty string) is replaced by `"unknown"` and extraction
  continues;
* the `doc-number` child via the plain `element.find("doc-number")`;
  absent yields no record;
* the stripped direct text; empty yields no record;
* otherwise the record with `get_priority load_source`. -/
def extract_doc_number_from_document_id (document_id_elem : XElem) :
    Option String × Nat × String :=
  let ls0 := get_normalized_attribute document_id_elem "load-source"
  let load_source := match ls0 with
    | none => "unknown"
    | some s => if s = "" then "unknown" else s
  match findChild document_id_elem "doc-number" with
  | none => (none, DEFAULT_PRIORITY, load_source)
  | some doc_number_elem =>
    let doc_number := extract_text_content doc_number_elem
    if doc_number = "" then (none, DEFAULT_PRIORITY, load_source)
    else (some doc_number, get_priority load_source, load_source)

/-! ### extractor.py: whole-file extraction -/

/-- A collected entry `(doc_number, priority, load_source)`. -/
abbrev Entry : Type := String × Nat × String

/-- The inner collection loop of `extract_doc_numbers` (extractor.py lines
167-187), with the per-element extraction step abstracted: `try` the step;
append when it returns a doc-number, skip when it returns none, and on any
exception log and `continue` with the next element. -/
def collectEntries (step : XElem → Except PatError (Option String × Nat × String))
    (doc_ids : List XElem) : List Entry :=
  doc_ids.foldl
    (fun acc doc_id =>
      match step doc_id with
      | .ok (some doc_number, priority, load_source) =>
          acc ++ [(doc_number, priority, load_source)]
      | .ok (none, _, _) => acc
      | .error _ => acc)
    []

/-- The per-element step the real loop runs: the pure
`extract_doc_number_from_document_id`, which never raises. -/
def stepExtract (doc_id : XElem) :
    Except PatError (Option String × Nat × String) :=
  .ok (extract_doc_number_from_document_id doc_id)

/-- The Python sort key `(priority, doc_number)` of line 194, compared as
Python compares tuples: lexicographically. -/
def entryKey (e : Entry) : Nat × String := (e.2.1, e.1)

/-- Python tuple comparison on sort keys: `(p, d) <= (q, e)` iff `p < q`
or `p = q` and `d <= e` by string comparison. -/
def keyLE (a b : Nat × String) : Prop :=
  a.1 < b.1 ∨ (a.1 = b.1 ∧ pyStrLe a.2 b.2 = true)

instance : DecidableRel keyLE := fun a b => by
  unfold keyLE; infer_instance

/-- The sort-key order lifted to entries. -/
def entryLE (a b : Entry) : Prop := keyLE (entryKey a) (entryKey b)

instance : DecidableRel entryLE := fun a b => by
  unfold entryLE; infer_instance

/-- `doc_number_entries.sort(key=lambda x: (x[1], x[0]))` (extractor.py
line 194): a stable sort, ascending by the key; modelled by insertion
sort, which is stable, hence produces the same list as Python's stable
sort for this total preorder. -/
def sortEntries (entries : List Entry) : List Entry :=
  List.insertionSort entryLE entries

/-- `extract_doc_numbers` after a successful parse (extractor.py lines
151-202): locate `application-reference` elements (none yields `[]`),
collect entries over every contained `document-id`, return `[]` when no
entries, else sort by `(priority, doc_number)` and project the
doc-numbers. -/
def extract_doc_numbers_core (root : XElem) : List String :=
  let application_refs :=
    find_elements_with_namespace_handling root "application-reference"
  if application_refs.isEmpty then []
  else
    let doc_number_entries := collectEntries stepExtract
      (application_refs.flatMap
        (fun app_ref => find_elements_with_namespace_handling app_ref "document-id"))
    if doc_number_entries.isEmpty then []
    else (sortEntries doc_number_entries).map (fun x => x.1)

/-- `extract_doc_numbers` (extractor.py line 115): parse, re-raising any
parse error, then extract. -/
def extract_doc_numbers (lib : ExtLib) (fs : FileState) :
    Except PatError (List String) :=
  match parse_xml_file lib fs with
  | .error e => .error e
  | .ok root => .ok (extract_doc_numbers_core root)

/-! ### Concrete documents used by counterexamples and witnesses -/

/-- A `doc-number` element with text `999000888`. -/
def exDocNum1 : XElem := .node 2 "doc-number" [] (some "999000888") none .nil

/-- A `document-id` element with no attributes at all (hence no
`load-source`), containing a valid `doc-number`. -/
def exDocIdNoSource : XElem := .node 1 "document-id" [] none none (.ofList [exDocNum1])

/-- A `doc-number` element with text `66667777`. -/
def exDocNum2 : XElem := .node 4 "doc-number" [] (some "66667777") none .nil

/-- A `document-id` element with `load-source="patent-office"`. -/
def exDocIdPatentOffice : XElem :=
  .node 3 "document-id" [("load-source", "patent-office")] none none (.ofList [exDocNum2])

/-- An `application-reference` containing both document-ids above. -/
def exAppRef : XElem :=
  .node 5 "application-reference" [("ucid", "US-X")] none none
    (.ofList [exDocIdNoSource, exDocIdPatentOffice])

/-- A document whose first `document-id` lacks `load-source`. -/
def exRootMissingSource : XElem :=
  .node 6 "root" [] none none (.ofList [exAppRef])

/-- A namespaced `doc-number` child (tag `\x7bhttp://ns\x7ddoc-number`). -/
def exDocNumNs : XElem :=
  .node 12 "\x7bhttp://ns\x7ddoc-number" [] (some "999000888") none .nil

/-- A non-namespaced `document-id` with `load-source="epo"` whose only
`doc-number` child is namespaced. -/
def exDocIdNsChild : XElem :=
  .node 11 "document-id" [("load-source", "epo")] none none (.ofList [exDocNumNs])

/-! ### Claim theorems -/

/-- **C5.** For every load-source string, priority assignment equals the
fixed table applied after normalization (lowercase, strip, synonym
mapping): values normalizing to `epo` or `docdb` yield priority 0, values
normalizing to `patent-office`, `patent_office`, or `patentoffice` yield
priority 1, and every other value yields priority 99. -/
theorem C5_get_priority_fixed_table (s : String) :
    get_priority s =
      (if pyStrip (pyLower s) = "epo" ∨ pyStrip (pyLower s) = "docdb" then 0
       else if pyStrip (pyLower s) = "patent-office" ∨
           pyStrip (pyLower s) = "patent_office" ∨
           pyStrip (pyLower s) = "patentoffice" then 1
       else 99) := by
  unfold get_priority normalize_load_source
  by_cases h1 : pyStrip (pyLower s) = "epo" ∨ pyStrip (pyLower s) = "docdb"
  · simp [h1, PRIORITY_MAP, List.find?, DEFAULT_PRIORITY]
  · by_cases h2 : pyStrip (pyLower s) = "patent-office" ∨
        pyStrip (pyLower s) = "patent_office" ∨
        pyStrip (pyLower s) = "patentoffice"
    · simp [h1, h2, PRIORITY_MAP, List.find?, DEFAULT_PRIORITY]
    · push_neg at h1 h2
      have e1 : ("epo" : String) ≠ pyStrip (pyLower s) := Ne.symm h1.1
      have e2 : ("docdb" : String) ≠ pyStrip (pyLower s) := Ne.symm h1.2
      have e3 : ("patent-office" : String) ≠ pyStrip (pyLower s) := Ne.symm h2.1
      have e4 : ("patent_office" : String) ≠ pyStrip (pyLower s) := Ne.symm h2.2.1
      have e5 : ("patentoffice" : String) ≠ pyStrip (pyLower s) := Ne.symm h2.2.2
      simp [h1.1, h1.2, h2.1, h2.2.1, h2.2.2, PRIORITY_MAP, List.find?,
        DEFAULT_PRIORITY, e1, e2, e3, e4, e5]

/-- **C6.** Normalized attribute lookup is invariant under case changes
and hyphen/underscore interchange in the attribute name: whenever two
attribute-name spellings agree after lowercasing and collapsing `-` and
`_` to one separator (which is exactly `normalize_attribute_name`), the
lookup returns the same result on every element. -/
theorem C6_attribute_lookup_separator_insensitive (e : XElem) (n1 n2 : String)
    (h : normalize_attribute_name n1 = normalize_attribute_name n2) :
    get_normalized_attribute e n1 = get_normalized_attribute e n2 := by
  unfold get_normalized_attribute
  rw [h]

/-- Witness for C6 at the spellings named by the claim: `LOAD-SOURCE`,
`load_source` and `Load-Source` all canonicalize alike and resolve to the
same value on a concrete element. -/
theorem C6_attribute_lookup_separator_insensitive_witness :
    get_normalized_attribute exDocIdPatentOffice "LOAD-SOURCE" =
        get_normalized_attribute exDocIdPatentOffice "load_source" ∧
      get_normalized_attribute exDocIdPatentOffice "Load-Source" =
        get_normalized_attribute exDocIdPatentOffice "load_source" ∧
      get_normalized_attribute exDocIdPatentOffice "LOAD-SOURCE" =
        some "patent-office" :=
  ⟨C6_attribute_lookup_separator_insensitive exDocIdPatentOffice
      "LOAD-SOURCE" "load_source" (by decide),
    C6_attribute_lookup_separator_insensitive exDocIdPatentOffice
      "Load-Source" "load_source" (by decide),
    by decide⟩

/-- **C8.** Text extraction from a doc-number element takes only the
element's direct text (not descendant or tail text) and strips leading and
trailing whitespace, so `"  999000888  "` yields `"999000888"`; if the
stripped text is empty (including whitespace-only content), the
document-id contributes no record. -/
theorem C8_text_extraction_direct_stripped :
    (∀ (i : Nat) (t : String) (a : List (String × String)) (s : String)
        (tl tl' : Option String) (cs cs' : XForest),
        extract_text_content (.node i t a (some s) tl cs) = pyStrip s ∧
        extract_text_content (.node i t a (some s) tl cs) =
          extract_text_content (.node i t a (some s) tl' cs')) ∧
    extract_text_content
        (.node 0 "doc-number" [] (some "  999000888  ") none .nil) =
      "999000888" ∧
    (∀ (e dn : XElem), findChild e "doc-number" = some dn →
      extract_text_content dn = "" →
      (extract_doc_number_from_document_id e).1 = none) := by
  refine ⟨fun i t a s tl tl' cs cs' => ⟨rfl, rfl⟩, by decide, ?_⟩
  intro e dn hfind hempty
  unfold extract_doc_number_from_document_id
  rw [hfind]
  simp [hempty]

/-- Witness for C8: on a concrete document-id whose doc-number contains
only whitespace, no record is produced. -/
theorem C8_text_extraction_direct_stripped_witness :
    (extract_doc_number_from_document_id
      (.node 21 "document-id" [("load-source", "epo")] none none
        (.ofList [.node 22 "doc-number" [] (some "   ") none .nil]))).1
      = none :=
  C8_text_extraction_direct_stripped.2.2
    (.node 21 "document-id" [("load-source", "epo")] none none
      (.ofList [.node 22 "doc-number" [] (some "   ") none .nil]))
    (.node 22 "doc-number" [] (some "   ") none .nil)
    rfl rfl

/-- **C1 (code behaviour at the failing input).**  The spec and the
repository's own test `test_missing_load_source` say a document-id
without a `load-source` attribute contributes no record; the code instead
substitutes the placeholder `"unknown"`, keeps extracting, and emits the
record with default priority 99, so the extra doc-number appears (last)
in the output. -/
theorem C1_missing_load_source_record_kept :
    get_normalized_attribute exDocIdNoSource "load-source" = none ∧
    extract_doc_number_from_document_id exDocIdNoSource =
      (some "999000888", 99, "unknown") ∧
    extract_doc_numbers_core exRootMissingSource =
      ["66667777", "999000888"] := by
  decide

/-- **C4 (code behaviour at the failing input).**  The spec says the
`doc-number` child is located with the same local-name-matching strategy
as the element locator, so a namespaced child under a non-namespaced
document-id is still found; the code instead uses the plain
`element.find("doc-number")`, which misses the namespaced child and
produces no record, even though the locator strategy does find that
child. -/
theorem C4_doc_number_child_plain_find :
    findChild exDocIdNsChild "doc-number" = none ∧
    extract_doc_number_from_document_id exDocIdNsChild = (none, 99, "epo") ∧
    (find_elements_with_namespace_handling exDocIdNsChild "doc-number").map
        XElem.eid = [12] ∧
    localName exDocNumNs.tag = "doc-number" :=
  ⟨rfl, rfl, rfl, rfl⟩

/-- On readable bytes the encoding loop always succeeds, and never gets
past latin-1 in the candidate list: utf-8 is tried, then utf-16, and
latin-1 decodes unconditionally. -/
theorem tryEncodings_readable (lib : ExtLib) (bs : List Nat) :
    ∃ content enc,
      tryEncodings lib (.readable bs) ENCODINGS_TO_TRY = some (content, enc) ∧
      (enc = Enc.utf8 ∨ enc = Enc.utf16 ∨ enc = Enc.latin1) := by
  unfold ENCODINGS_TO_TRY
  cases h8 : lib.utf8Decode bs with
  | some c =>
    exact ⟨c, .utf8, by simp [tryEncodings, readBytes, decodeWith, h8],
      Or.inl rfl⟩
  | none =>
    cases h16 : lib.utf16Decode bs with
    | some c =>
      exact ⟨c, .utf16, by simp [tryEncodings, readBytes, decodeWith, h8, h16],
        Or.inr (Or.inl rfl)⟩
    | none =>
      exact ⟨latin1Decode bs, .latin1,
        by simp [tryEncodings, readBytes, decodeWith, h8, h16],
        Or.inr (Or.inr rfl)⟩

/-- **C10.** Because latin-1 appears in the fixed candidate list and
latin-1 decoding succeeds on every byte sequence, the decoding loop
always finds a working encoding whenever the bytes can be read: the
"no supported encoding" `FileError` branch is unreachable, and the
encodings listed after latin-1 (`iso-8859-1`, `cp1252`) are never
selected. -/
theorem C10_latin1_makes_decode_total (lib : ExtLib) (bs : List Nat) :
    (∃ content enc,
        tryEncodings lib (.readable bs) ENCODINGS_TO_TRY = some (content, enc) ∧
        (enc = Enc.utf8 ∨ enc = Enc.utf16 ∨ enc = Enc.latin1)) ∧
    (∀ content,
        tryEncodings lib (.readable bs) ENCODINGS_TO_TRY ≠
          some (content, Enc.iso8859_1) ∧
        tryEncodings lib (.readable bs) ENCODINGS_TO_TRY ≠
          some (content, Enc.cp1252)) ∧
    (∀ m, parse_xml_file lib (.readable bs) ≠ .error (.fileError m)) := by
  obtain ⟨c, enc, hsome, henc⟩ := tryEncodings_readable lib bs
  refine ⟨⟨c, enc, hsome, henc⟩, ?_, ?_⟩
  · intro content
    constructor <;> intro h <;> rw [hsome] at h <;>
      rcases henc with h1 | h1 | h1 <;> subst h1 <;> simp at h
  · intro m
    unfold parse_xml_file
    rw [hsome]
    cases hp : lib.xmlRecoverParse c <;> simp [hp]

/-- **C3.** The document loader fails with `FileError` exactly when the
path does not exist, is not a regular file, or cannot be opened for
reading; it fails with `XMLParseError` exactly when the bytes were read
and decoded but the recovering parser cannot produce a tree (the claim's
other `ParseError` trigger, "no supported encoding can decode", never
occurs: by C10 a readable file always decodes); and it never raises the
third error kind, so these are the only failure modes. -/
theorem C3_loader_failure_modes (lib : ExtLib) (fs : FileState) :
    ((∃ m, parse_xml_file lib fs = .error (.fileError m)) ↔
      (fs = .missing ∨ fs = .notFile ∨ fs = .unreadable)) ∧
    ((∃ m, parse_xml_file lib fs = .error (.xmlParseError m)) ↔
      (∃ bs content enc, fs = .readable bs ∧
        tryEncodings lib fs ENCODINGS_TO_TRY = some (content, enc) ∧
        lib.xmlRecoverParse content = none)) ∧
    (∀ m, parse_xml_file lib fs ≠ .error (.extractionError m)) := by
  cases fs with
  | missing =>
    refine ⟨?_, ?_, ?_⟩ <;> simp [parse_xml_file]
  | notFile =>
    refine ⟨?_, ?_, ?_⟩ <;> simp [parse_xml_file]
  | unreadable =>
    have htry : tryEncodings lib .unreadable ENCODINGS_TO_TRY = none := rfl
    refine ⟨?_, ?_, ?_⟩ <;> simp [parse_xml_file, htry]
  | readable bs =>
    obtain ⟨c, enc, hsome, henc⟩ := tryEncodings_readable lib bs
    cases hp : lib.xmlRecoverParse c with
    | some tree =>
      have hval : parse_xml_file lib (.readable bs) = .ok tree := by
        unfold parse_xml_file
        rw [hsome]
        simp [hp]
      refine ⟨iff_of_false ?_ ?_, iff_of_false ?_ ?_, ?_⟩
      · rintro ⟨m, hm⟩
        rw [hval] at hm
        exact Except.noConfusion hm
      · rintro (h | h | h) <;> exact FileState.noConfusion h
      · rintro ⟨m, hm⟩
        rw [hval] at hm
        exact Except.noConfusion hm
      · rintro ⟨bs', c', e', hbs, h1, h2⟩
        injection hbs with hb
        subst hb
        rw [hsome] at h1
        injection h1 with h1
        injection h1 with hc he
        subst hc
        rw [hp] at h2
        exact Option.noConfusion h2
      · intro m hm
        rw [hval] at hm
        exact Except.noConfusion hm
    | none =>
      have hval : parse_xml_file lib (.readable bs) =
          .error (.xmlParseError "Failed to parse XML file") := by
        unfold parse_xml_file
        rw [hsome]
        simp [hp]
      refine ⟨iff_of_false ?_ ?_,
        iff_of_true ⟨"Failed to parse XML file", hval⟩
          ⟨bs, c, enc, rfl, hsome, hp⟩, ?_⟩
      · rintro ⟨m, hm⟩
        rw [hval] at hm
        injection hm with h
        exact PatError.noConfusion h
      · rintro (h | h | h) <;> exact FileState.noConfusion h
      · intro m hm
        rw [hval] at hm
        injection hm with h
        exact PatError.noConfusion h

/-- A document with no `application-reference` element at all. -/
def exRootNoAppRef : XElem :=
  .node 30 "patent-document" [] none none
    (.ofList [.node 31 "bibliographic-data" [] none none .nil])

/-- A document with one empty `application-reference` (no document-ids,
hence zero records). -/
def exRootEmptyAppRef : XElem :=
  .node 32 "root" [] none none
    (.ofList [.node 33 "application-reference" [] none none .nil])

/-- An external-library behaviour whose recovering parser always returns
the fixed tree `exRootNoAppRef`. -/
def exLib : ExtLib :=
  ⟨fun _ => none, fun _ => none, fun _ => none, fun _ => none,
    fun _ => some exRootNoAppRef⟩

/-- **C9.** Once the file is parsed, extraction never raises for missing
data or per-element faults: no `application-reference` elements, or zero
collected records, yield an empty list rather than an error; an exception
raised by the per-element step on one `document-id` only removes that
element from the collection, the loop continuing with the rest; and after
a successful parse `extract_doc_numbers` returns the extraction result as
a value. -/
theorem C9_partial_failure_tolerated :
    (∀ root : XElem,
      find_elements_with_namespace_handling root "application-reference" = [] →
      extract_doc_numbers_core root = []) ∧
    (∀ root : XElem,
      collectEntries stepExtract
        ((find_elements_with_namespace_handling root "application-reference").flatMap
          (fun app_ref =>
            find_elements_with_namespace_handling app_ref "document-id")) = [] →
      extract_doc_numbers_core root = []) ∧
    (∀ (step : XElem → Except PatError (Option String × Nat × String))
        (pre post : List XElem) (x : XElem) (err : PatError),
      step x = .error err →
      collectEntries step (pre ++ x :: post) = collectEntries step (pre ++ post)) ∧
    (∀ (lib : ExtLib) (fsv : FileState) (root : XElem),
      parse_xml_file lib fsv = .ok root →
      extract_doc_numbers lib fsv = .ok (extract_doc_numbers_core root)) := by
  refine ⟨?_, ?_, ?_, ?_⟩
  · intro root h
    unfold extract_doc_numbers_core
    simp [h]
  · intro root h
    unfold extract_doc_numbers_core
    by_cases happ :
        (find_elements_with_namespace_handling root "application-reference").isEmpty
    · simp [happ]
    · simp [happ, h]
  · intro step pre post x err h
    unfold collectEntries
    rw [List.foldl_append, List.foldl_append, List.foldl_cons, h]
  · intro lib fsv root h
    unfold extract_doc_numbers
    rw [h]

/-- Witness for C9: a document with no `application-reference` and one
with an empty `application-reference` both extract to `[]`; a step that
raises on a specific element collects the same entries as if the element
were absent; and a successful parse through `exLib` yields a value. -/
theorem C9_partial_failure_tolerated_witness :
    extract_doc_numbers_core exRootNoAppRef = [] ∧
    extract_doc_numbers_core exRootEmptyAppRef = [] ∧
    collectEntries (fun _ => .error (.extractionError "boom"))
        ([] ++ exDocIdNoSource :: [exDocIdPatentOffice]) =
      collectEntries (fun _ => .error (.extractionError "boom"))
        ([] ++ [exDocIdPatentOffice]) ∧
    extract_doc_numbers exLib (.readable [60, 97, 62]) =
      .ok (extract_doc_numbers_core exRootNoAppRef) :=
  ⟨C9_partial_failure_tolerated.1 exRootNoAppRef rfl,
    C9_partial_failure_tolerated.2.1 exRootEmptyAppRef rfl,
    C9_partial_failure_tolerated.2.2.1 (fun _ => .error (.extractionError "boom"))
      [] [exDocIdPatentOffice] exDocIdNoSource (.extractionError "boom") rfl,
    C9_partial_failure_tolerated.2.2.2 exLib (.readable [60, 97, 62])
      exRootNoAppRef rfl⟩

/-- Membership in the second discovery pass: the fold collects exactly
the already-collected elements plus the walked elements whose local name
matches; proved under identity-injectivity (distinct elements in play
have distinct `eid`s), which real lxml trees satisfy. -/
theorem foldl_collectStep_mem (tag : String) :
    ∀ (l acc : List XElem),
      (∀ a b : XElem, a ∈ acc ++ l → b ∈ acc ++ l → a.eid = b.eid → a = b) →
      ∀ e, e ∈ l.foldl (collectStep tag) acc ↔
        (e ∈ acc ∨ (e ∈ l ∧ localName e.tag = tag)) := by
  intro l
  induction l with
  | nil => intro acc _ e; simp
  | cons x l ih =>
    intro acc hinj e
    rw [List.foldl_cons]
    by_cases hcond : localName x.tag = tag ∧
        ¬ acc.any (fun r => decide (r.eid = x.eid))
    · have hstep : collectStep tag acc x = acc ++ [x] := by
        unfold collectStep
        rw [if_pos hcond]
      rw [hstep]
      have hinj' : ∀ a b : XElem,
          a ∈ (acc ++ [x]) ++ l → b ∈ (acc ++ [x]) ++ l → a.eid = b.eid → a = b := by
        intro a b ha hb
        apply hinj a b
        · simp only [List.mem_append, List.mem_cons, List.mem_singleton] at ha ⊢
          tauto
        · simp only [List.mem_append, List.mem_cons, List.mem_singleton] at hb ⊢
          tauto
      rw [ih (acc ++ [x]) hinj' e]
      have hx : e = x → localName e.tag = tag := fun h => by rw [h]; exact hcond.1
      simp only [List.mem_append, List.mem_singleton, List.mem_cons]
      tauto
    · have hstep : collectStep tag acc x = acc := by
        unfold collectStep
        rw [if_neg hcond]
      rw [hstep]
      have hinj' : ∀ a b : XElem,
          a ∈ acc ++ l → b ∈ acc ++ l → a.eid = b.eid → a = b := by
        intro a b ha hb
        apply hinj a b
        · simp only [List.mem_append, List.mem_cons] at ha ⊢
          tauto
        · simp only [List.mem_append, List.mem_cons] at hb ⊢
          tauto
      rw [ih acc hinj' e]
      by_cases hloc : localName x.tag = tag
      · have hany : acc.any (fun r => decide (r.eid = x.eid)) := by
          by_contra hno
          exact hcond ⟨hloc, hno⟩
        obtain ⟨a, hamem, haeq⟩ := List.any_eq_true.mp hany
        have hax : a = x := hinj a x
          (List.mem_append.mpr (Or.inl hamem))
          (List.mem_append.mpr (Or.inr (List.mem_cons_self x l)))
          (of_decide_eq_true haeq)
        have hex : e = x → e ∈ acc := fun h => h ▸ (hax ▸ hamem)
        simp only [List.mem_cons]
        tauto
      · have hex : e = x → ¬ localName e.tag = tag := fun h => by
          rw [h]; exact hloc
        simp only [List.mem_cons]
        tauto

/-- The second discovery pass preserves distinctness of identities. -/
theorem foldl_collectStep_nodup (tag : String) :
    ∀ (l acc : List XElem), (acc.map XElem.eid).Nodup →
      ((l.foldl (collectStep tag) acc).map XElem.eid).Nodup := by
  intro l
  induction l with
  | nil => intro acc h; simpa using h
  | cons x l ih =>
    intro acc hacc
    rw [List.foldl_cons]
    by_cases hcond : localName x.tag = tag ∧
        ¬ acc.any (fun r => decide (r.eid = x.eid))
    · have hstep : collectStep tag acc x = acc ++ [x] := by
        unfold collectStep
        rw [if_pos hcond]
      rw [hstep]
      apply ih
      rw [List.map_append, List.map_singleton]
      apply List.Nodup.append hacc (List.nodup_singleton _)
      intro y hy hysing
      rw [List.mem_singleton] at hysing
      subst hysing
      obtain ⟨a, hamem, haeq⟩ := List.mem_map.mp hy
      exact hcond.2 (List.any_eq_true.mpr ⟨a, hamem, decide_eq_true haeq⟩)
    · have hstep : collectStep tag acc x = acc := by
        unfold collectStep
        rw [if_neg hcond]
      rw [hstep]
      exact ih acc hacc

/-- **C7.** Given a tree whose elements have pairwise-distinct identities
and a target that is a plain local name, the element locator returns
exactly the elements of the subtree whose local name equals the target
(the subtree includes the root itself, which `iter()` visits), each
element at most once, and in particular the empty list when nothing
matches; being a total function it never fails. -/
theorem C7_locator_exact_no_duplicates (root : XElem) (tag : String)
    (hids : ((root.iter).map XElem.eid).Nodup)
    (htag : localName tag = tag) :
    (∀ e, e ∈ find_elements_with_namespace_handling root tag ↔
        (e ∈ root.iter ∧ localName e.tag = tag)) ∧
    ((find_elements_with_namespace_handling root tag).map XElem.eid).Nodup ∧
    ((∀ e ∈ root.iter, localName e.tag ≠ tag) →
      find_elements_with_namespace_handling root tag = []) := by
  have hdesc_sub : (findallDescendants root tag).Sublist root.iter := by
    have h1 : (findallDescendants root tag).Sublist
        (root.children.flatMap XElem.iter) := List.filter_sublist _
    have h2 : (root.children.flatMap XElem.iter).Sublist root.iter := by
      rw [XElem.iter_def]
      exact List.sublist_cons_self _ _
    exact h1.trans h2
  have hbase_mem : ∀ e ∈ findallDescendants root tag,
      e ∈ root.iter ∧ localName e.tag = tag := by
    intro e he
    refine ⟨hdesc_sub.subset he, ?_⟩
    have he' : e ∈ (root.children.flatMap XElem.iter).filter
        (fun c => decide (c.tag = tag)) := he
    have htagged : e.tag = tag := by simpa using List.of_mem_filter he'
    rw [htagged]
    exact htag
  have hinj : ∀ a b : XElem,
      a ∈ findallDescendants root tag ++ root.iter →
      b ∈ findallDescendants root tag ++ root.iter →
      a.eid = b.eid → a = b := by
    intro a b ha hb heq
    have hmem : ∀ c : XElem,
        c ∈ findallDescendants root tag ++ root.iter → c ∈ root.iter := by
      intro c hc
      rcases List.mem_append.mp hc with h | h
      · exact hdesc_sub.subset h
      · exact h
    exact List.inj_on_of_nodup_map hids (hmem a ha) (hmem b hb) heq
  have hmain : ∀ e, e ∈ find_elements_with_namespace_handling root tag ↔
      (e ∈ root.iter ∧ localName e.tag = tag) := by
    intro e
    unfold find_elements_with_namespace_handling
    rw [foldl_collectStep_mem tag root.iter (findallDescendants root tag) hinj e]
    constructor
    · rintro (h | h)
      · exact hbase_mem e h
      · exact h
    · exact fun h => Or.inr h
  refine ⟨hmain, ?_, ?_⟩
  · unfold find_elements_with_namespace_handling
    apply foldl_collectStep_nodup
    exact List.Nodup.sublist (hdesc_sub.map XElem.eid) hids
  · intro hnone
    apply List.eq_nil_iff_forall_not_mem.mpr
    intro e he
    have h := (hmain e).mp he
    exact hnone e h.1 h.2

/-- Witness for C7 on a concrete mixed-namespace document: the locator
finds both the namespaced and the plain `document-id` (and nothing else),
without duplicates. -/
theorem C7_locator_exact_no_duplicates_witness :
    ((find_elements_with_namespace_handling exRootMissingSource
        "document-id").map XElem.eid).Nodup ∧
    (exDocIdNoSource ∈ find_elements_with_namespace_handling
        exRootMissingSource "document-id" ↔
      (exDocIdNoSource ∈ exRootMissingSource.iter ∧
        localName exDocIdNoSource.tag = "document-id")) :=
  ⟨(C7_locator_exact_no_duplicates exRootMissingSource "document-id"
      (by decide) (by decide)).2.1,
    (C7_locator_exact_no_duplicates exRootMissingSource "document-id"
      (by decide) (by decide)).1 exDocIdNoSource⟩

/-! ### Order lemmas for the sort key -/

/-- `lexLe` is total. -/
theorem lexLe_total : ∀ as bs : List Char, lexLe as bs = true ∨ lexLe bs as = true
  | [], _ => Or.inl rfl
  | _ :: _, [] => Or.inr rfl
  | a :: as, b :: bs => by
    rcases lt_trichotomy a b with h | h | h
    · left
      simp [lexLe, h]
    · subst h
      rcases lexLe_total as bs with ih | ih <;> simp [lexLe, ih]
    · right
      simp [lexLe, h]

/-- `lexLe` is transitive. -/
theorem lexLe_trans : ∀ as bs cs : List Char,
    lexLe as bs = true → lexLe bs cs = true → lexLe as cs = true
  | [], _, _ => fun _ _ => rfl
  | _ :: _, [], _ => fun h _ => by exact absurd h (by simp [lexLe])
  | _ :: _, _ :: _, [] => fun _ h => by exact absurd h (by simp [lexLe])
  | a :: as, b :: bs, c :: cs => fun h1 h2 => by
    have h1' : (if a < b then true else if a = b then lexLe as bs else false)
        = true := h1
    have h2' : (if b < c then true else if b = c then lexLe bs cs else false)
        = true := h2
    show (if a < c then true else if a = c then lexLe as cs else false) = true
    by_cases hab : a < b
    · by_cases hbc : b < c
      · rw [if_pos (hab.trans hbc)]
      · by_cases hbce : b = c
        · rw [if_pos (hbce ▸ hab)]
        · rw [if_neg hbc, if_neg hbce] at h2'
          exact absurd h2' (by simp)
    · rw [if_neg hab] at h1'
      by_cases habe : a = b
      · rw [if_pos habe] at h1'
        by_cases hbc : b < c
        · rw [if_pos (habe ▸ hbc)]
        · by_cases hbce : b = c
          · rw [if_neg hbc, if_pos hbce] at h2'
            rw [if_neg (habe ▸ hbc), if_pos (habe.trans hbce)]
            exact lexLe_trans as bs cs h1' h2'
          · rw [if_neg hbc, if_neg hbce] at h2'
            exact absurd h2' (by simp)
      · rw [if_neg habe] at h1'
        exact absurd h1' (by simp)

/-- `lexLe` is antisymmetric. -/
theorem lexLe_antisymm : ∀ as bs : List Char,
    lexLe as bs = true → lexLe bs as = true → as = bs
  | [], [] => fun _ _ => rfl
  | [], _ :: _ => fun _ h => by exact absurd h (by simp [lexLe])
  | _ :: _, [] => fun h _ => by exact absurd h (by simp [lexLe])
  | a :: as, b :: bs => fun h1 h2 => by
    have h1' : (if a < b then true else if a = b then lexLe as bs else false)
        = true := h1
    have h2' : (if b < a then true else if b = a then lexLe bs as else false)
        = true := h2
    by_cases hab : a < b
    · rw [if_neg (asymm hab), if_neg (ne_of_gt hab)] at h2'
      exact absurd h2' (by simp)
    · rw [if_neg hab] at h1'
      by_cases habe : a = b
      · rw [if_pos habe] at h1'
        rw [if_neg (habe ▸ hab), if_pos habe.symm] at h2'
        rw [habe, lexLe_antisymm as bs h1' h2']
      · rw [if_neg habe] at h1'
        exact absurd h1' (by simp)

/-- Strings with equal character data are equal. -/
theorem string_eq_of_data {s t : String} (h : s.data = t.data) : s = t := by
  cases s
  cases t
  exact congrArg String.mk h

instance : IsTotal (Nat × String) keyLE :=
  ⟨fun a b => by
    unfold keyLE
    rcases lt_trichotomy a.1 b.1 with h | h | h
    · exact Or.inl (Or.inl h)
    · rcases lexLe_total a.2.data b.2.data with hs | hs
      · exact Or.inl (Or.inr ⟨h, hs⟩)
      · exact Or.inr (Or.inr ⟨h.symm, hs⟩)
    · exact Or.inr (Or.inl h)⟩

instance : IsTrans (Nat × String) keyLE :=
  ⟨fun a b c hab hbc => by
    unfold keyLE at hab hbc ⊢
    rcases hab with h1 | ⟨h1, hs1⟩
    · rcases hbc with h2 | ⟨h2, _⟩
      · exact Or.inl (h1.trans h2)
      · exact Or.inl (h2 ▸ h1)
    · rcases hbc with h2 | ⟨h2, hs2⟩
      · exact Or.inl (h1 ▸ h2)
      · exact Or.inr ⟨h1.trans h2, lexLe_trans _ _ _ hs1 hs2⟩⟩

instance : IsAntisymm (Nat × String) keyLE :=
  ⟨fun a b hab hba => by
    unfold keyLE at hab hba
    rcases hab with h1 | ⟨h1, hs1⟩
    · rcases hba with h2 | ⟨h2, _⟩
      · exact absurd h2 (asymm h1)
      · exact absurd h2.symm (ne_of_lt h1)
    · rcases hba with h2 | ⟨h2, hs2⟩
      · exact absurd h1.symm (ne_of_lt h2)
      · have hdata : a.2.data = b.2.data := lexLe_antisymm _ _ hs1 hs2
        have hstr : a.2 = b.2 := string_eq_of_data hdata
        exact Prod.ext h1 hstr⟩

instance : IsTotal Entry entryLE :=
  ⟨fun a b => total_of keyLE (entryKey a) (entryKey b)⟩

instance : IsTrans Entry entryLE :=
  ⟨fun a b c => trans_of keyLE (a := entryKey a) (b := entryKey b) (c := entryKey c)⟩

/-- The full list of entries collected for a document, before sorting:
every `document-id` under every `application-reference`, through the
per-element extractor, skipping elements that yield no record. -/
def docEntries (root : XElem) : List Entry :=
  collectEntries stepExtract
    ((find_elements_with_namespace_handling root "application-reference").flatMap
      (fun app_ref => find_elements_with_namespace_handling app_ref "document-id"))

/-- The result of extraction is exactly the doc-number projection of the
sorted entry list (the two early empty returns coincide with sorting an
empty list). -/
theorem extract_core_eq_sorted (root : XElem) :
    extract_doc_numbers_core root =
      (sortEntries (docEntries root)).map (fun e => e.1) := by
  unfold extract_doc_numbers_core docEntries
  by_cases h1 :
      (find_elements_with_namespace_handling root "application-reference").isEmpty
  · rw [if_pos h1]
    rw [List.isEmpty_iff.mp h1]
    rfl
  · rw [if_neg h1]
    by_cases h2 : (collectEntries stepExtract
        ((find_elements_with_namespace_handling root
          "application-reference").flatMap
          (fun app_ref =>
            find_elements_with_namespace_handling app_ref "document-id"))).isEmpty
    · rw [if_pos h2]
      rw [List.isEmpty_iff.mp h2]
      rfl
    · rw [if_neg h2]

/-- Sorted doc-number projections of permuted entry lists coincide: the
sort keys, being sorted under an antisymmetric order, are equal lists,
and the doc-number is a component of the key. -/
theorem sorted_proj_eq_of_perm (l1 l2 : List Entry) (h : l1.Perm l2) :
    (sortEntries l1).map (fun e => e.1) = (sortEntries l2).map (fun e => e.1) := by
  have hkeys : (sortEntries l1).map entryKey = (sortEntries l2).map entryKey := by
    apply List.eq_of_perm_of_sorted (r := keyLE)
    · exact ((List.perm_insertionSort entryLE l1).map entryKey).trans
        ((h.map entryKey).trans
          (((List.perm_insertionSort entryLE l2).map entryKey).symm))
    · exact List.Pairwise.map entryKey (fun a b hab => hab)
        (List.sorted_insertionSort entryLE l1)
    · exact List.Pairwise.map entryKey (fun a b hab => hab)
        (List.sorted_insertionSort entryLE l2)
  have hproj : ∀ l : List Entry,
      l.map (fun e : Entry => e.1) = (l.map entryKey).map Prod.snd := by
    intro l
    rw [List.map_map]
    rfl
  rw [hproj, hproj, hkeys]

/-- **C2.** The list returned by extraction is the doc-number projection
of the entry list sorted ascending by the pair (priority, doc-number):
priorities are nondecreasing along the result (so every priority-0 epo
record precedes every priority-1 patent-office record), ties in priority
are ordered by lexicographic doc-number comparison, and the result is
determined by the multiset of collected entries, independent of original
document order. -/
theorem C2_result_sorted_by_priority_then_docnumber (root : XElem) :
    extract_doc_numbers_core root =
      (sortEntries (docEntries root)).map (fun e => e.1) ∧
    List.Sorted entryLE (sortEntries (docEntries root)) ∧
    List.Pairwise (fun a b : Entry => a.2.1 ≤ b.2.1)
      (sortEntries (docEntries root)) ∧
    (∀ root' : XElem, (docEntries root).Perm (docEntries root') →
      extract_doc_numbers_core root = extract_doc_numbers_core root') := by
  refine ⟨extract_core_eq_sorted root, List.sorted_insertionSort entryLE _, ?_, ?_⟩
  · apply List.Pairwise.imp ?_ (List.sorted_insertionSort entryLE (docEntries root))
    intro a b hab
    rcases hab with h | ⟨h, _⟩
    · exact le_of_lt h
    · exact le_of_eq h
  · intro root' hperm
    rw [extract_core_eq_sorted root, extract_core_eq_sorted root']
    exact sorted_proj_eq_of_perm _ _ hperm

/-- An `application-reference` holding an epo document-id before a
patent-office document-id. -/
def exRootStd : XElem :=
  .node 40 "root" [] none none
    (.ofList [.node 43 "application-reference" [] none none
      (.ofList [.node 41 "document-id" [("load-source", "epo")] none none
          (.ofList [.node 42 "doc-number" [] (some "999000888") none .nil]),
        .node 44 "document-id" [("load-source", "patent-office")] none none
          (.ofList [.node 45 "doc-number" [] (some "66667777") none .nil])])])

/-- The same document with the two document-ids in the opposite order. -/
def exRootStdSwapped : XElem :=
  .node 40 "root" [] none none
    (.ofList [.node 43 "application-reference" [] none none
      (.ofList [.node 44 "document-id" [("load-source", "patent-office")] none none
          (.ofList [.node 45 "doc-number" [] (some "66667777") none .nil]),
        .node 41 "document-id" [("load-source", "epo")] none none
          (.ofList [.node 42 "doc-number" [] (some "999000888") none .nil])])])

/-- Witness for C2: swapping the document order of the two records leaves
the result unchanged, and the epo doc-number precedes the patent-office
one as in the specification scenario. -/
theorem C2_result_sorted_by_priority_then_docnumber_witness :
    extract_doc_numbers_core exRootStd =
      extract_doc_numbers_core exRootStdSwapped ∧
    extract_doc_numbers_core exRootStd = ["999000888", "66667777"] :=
  ⟨(C2_result_sorted_by_priority_then_docnumber exRootStd).2.2.2 exRootStdSwapped
      (by
        have h1 : docEntries exRootStd =
            [("999000888", 0, "epo"), ("66667777", 1, "patent-office")] := rfl
        have h2 : docEntries exRootStdSwapped =
            [("66667777", 1, "patent-office"), ("999000888", 0, "epo")] := rfl
        rw [h1, h2]
        exact List.Perm.swap _ _ _),
    by decide⟩
